import Mathlib

/-!
# Verification of the job-hosting supervisor (src/app.py)

A shallow embedding of the script-hosting supervisor: admission control
(`should_stop_due_to_load`), entry-point resolution (`find_main_file`),
archive extraction (`extract_archive`), dependency installation
(`install_requirements_from_file`, `extract_imports`,
`install_missing_imports`), process lifecycle
(`start_file_process`, `stop_file_process`, `monitor_process`,
`get_file_logs`) and the callback dispatcher (`callback_handler`,
`show_file_management`).

OS interaction (filesystem, process spawning, pip, psutil samples) is
passed in as explicit oracle parameters; database tables are association
lists; everything else follows the Python control flow branch by branch.
-/

/-! ## String primitives

Structurally recursive counterparts of the Python string operations the
code uses (`endswith`, `startswith`, `lower`, `strip`, `split`, joins),
working on the character list of a `String` so that concrete instances
evaluate by kernel reduction. -/

/-- Python `s.endswith(t)`. -/
def strEndsWith (s t : String) : Bool := t.data.isSuffixOf s.data

/-- Python `s.startswith(t)`. -/
def strStartsWith (s t : String) : Bool := t.data.isPrefixOf s.data

/-- Python `s.lower()` (ASCII, which is all the code compares). -/
def strToLower (s : String) : String := ⟨s.data.map Char.toLower⟩

/-- Python `s.strip()`: drop whitespace from both ends. -/
def strTrim (s : String) : String :=
  ⟨((s.data.dropWhile Char.isWhitespace).reverse.dropWhile
      Char.isWhitespace).reverse⟩

/-- Python `split` on a single separator character (Python `s.split(c)` for the
uses in the code; the result is never empty). -/
def splitOnChar (c : Char) : List Char → List (List Char)
  | [] => [[]]
  | a :: rest =>
    if a = c then [] :: splitOnChar c rest
    else
      match splitOnChar c rest with
      | [] => [[a]]
      | g :: gs => (a :: g) :: gs

/-- Python `sep.join(parts)`. -/
def strIntercalate (sep : String) : List String → String
  | [] => ""
  | [a] => a
  | a :: rest => a ++ sep ++ strIntercalate sep rest

/-- Python `''.join(parts)`. -/
def strJoin (parts : List String) : String :=
  parts.foldl (fun a b => a ++ b) ""

/-! ## Path helpers (os.path) -/

/-- Python `os.path.join(p, n)` for the simple two-component uses in the code. -/
def joinPath (p n : String) : String := p ++ "/" ++ n

/-- Python `os.path.dirname`: everything before the last slash (empty when none). -/
def dirnameOf (s : String) : String :=
  strIntercalate "/" ((splitOnChar '/' s.data).dropLast.map (fun l => ⟨l⟩))

/-- Python `os.path.basename`: the component after the last slash. -/
def basenameOf (s : String) : String :=
  ⟨(((splitOnChar '/' s.data).getLast?).getD s.data)⟩

/-- Python `os.path.splitext(s)[1]`: the final dot-suffix of the basename, or `""`
when the basename has no dot outside a leading run of dots. -/
def extOf (s : String) : String :=
  let b := basenameOf s
  let parts := splitOnChar '.' b.data
  match parts with
  | [] => ""
  | [_] => ""
  | _ =>
    if (parts.dropLast).all (fun q => q = []) then ""
    else "." ++ (⟨(parts.getLast?).getD []⟩ : String)

/-! ## Admission controller (`should_stop_due_to_load`, app.py:203) -/

/-- Externally configured thresholds (CPU_THRESHOLD, MEMORY_THRESHOLD,
MAX_RUNNING_PROCESSES). Percentages are modelled as rationals. -/
structure Config where
  cpuThreshold : ℚ
  memThreshold : ℚ
  maxRunning : ℕ
deriving DecidableEq

/-- The rejection reasons produced by `should_stop_due_to_load`, each
carrying the values interpolated into the Python message string. -/
inductive LoadReason where
  | tooManyProcesses (count maxR : ℕ)
  | highCpu (load : ℚ)
  | highMemory (mem : ℚ)
deriving DecidableEq

/-- Embedding of `should_stop_due_to_load` (app.py:203): three ordered checks over the
sampled CPU%, memory% and the live-job count `len(processes)`. -/
def should_stop_due_to_load (cfg : Config) (load mem : ℚ) (processCount : ℕ) :
    Bool × Option LoadReason :=
  if processCount ≥ cfg.maxRunning then
    (true, some (.tooManyProcesses processCount cfg.maxRunning))
  else if load ≥ cfg.cpuThreshold then
    (true, some (.highCpu load))
  else if mem ≥ cfg.memThreshold then
    (true, some (.highMemory mem))
  else
    (false, none)

/-! ## Entry-point resolver (`find_main_file`, app.py:245) -/

/-- A directory tree: the files directly contained, and the named
subdirectories, both in listing order (the order `os.walk` reports). -/
inductive Dir where
  | node (files : List String) (subs : List (String × Dir)) : Dir

/-- Files directly at the root of the tree. -/
def Dir.files : Dir → List String
  | .node fs _ => fs

/-- Named subdirectories at the root of the tree. -/
def Dir.subs : Dir → List (String × Dir)
  | .node _ ss => ss

mutual
/-- Python `os.walk(p)` (top-down): the directory itself first, then each
subdirectory's walk in listing order. Yields (dirpath, filenames). -/
def walkDir (p : String) : Dir → List (String × List String)
  | .node fs subs => (p, fs) :: walkForest p subs
/-- Walk of a list of named subtrees, in order. -/
def walkForest (p : String) : List (String × Dir) → List (String × List String)
  | [] => []
  | (n, d) :: rest => walkDir (joinPath p n) d ++ walkForest p rest
end

/-- The fixed priority list of conventional entry-point names
(app.py:247). -/
def priority_files : List String :=
  ["main.py", "bot.py", "app.py", "server.py", "index.py", "script.py",
   "main.js", "bot.js", "app.js", "server.js", "index.js", "script.js"]

/-- A file name with one of the two supported source extensions
(app.py:270). -/
def isSourceFile (f : String) : Bool := strEndsWith f ".py" || strEndsWith f ".js"

/-- Stage 2 of `find_main_file`: first walked directory containing a
priority name (priority order within each directory). -/
def findPriorityInWalk : List (String × List String) → Option String
  | [] => none
  | (p, fs) :: rest =>
    match priority_files.find? (fun n => fs.any (fun f => f = n)) with
    | some n => some (joinPath p n)
    | none => findPriorityInWalk rest

/-- Stage 3 of `find_main_file`: first file with a supported extension,
in walk order then listing order. -/
def findFallbackInWalk : List (String × List String) → Option String
  | [] => none
  | (p, fs) :: rest =>
    match fs.find? isSourceFile with
    | some f => some (joinPath p f)
    | none => findFallbackInWalk rest

/-- Embedding of `find_main_file(directory)` (app.py:245): (1) priority names at the
root; (2) priority names over the recursive walk; (3) any supported file
over the recursive walk; otherwise `None`. -/
def find_main_file (directory : String) (d : Dir) : Option String :=
  match priority_files.find? (fun n => d.files.any (fun f => f = n)) with
  | some n => some (joinPath directory n)
  | none =>
    match findPriorityInWalk (walkDir directory d) with
    | some p => some p
    | none => findFallbackInWalk (walkDir directory d)

/-! ## Archive extractor (`extract_archive`, app.py:228) -/

/-- The three container formats the code dispatches on. -/
inductive ArchiveKind where
  | zip
  | targz
  | tar
deriving DecidableEq

/-- Embedding of `extract_archive(file_path, extract_dir)` (app.py:228). The actual
unpacking (`extractall`) is the oracle `unpack`, which either succeeds or
raises with a message; the surrounding `try/except` turns the raise into
`(False, str(e))`. Unsupported suffixes are rejected before any unpack. -/
def extract_archive (filePath : String)
    (unpack : ArchiveKind → Except String Unit) : Bool × Option String :=
  let lower := strToLower filePath
  if strEndsWith lower ".zip" then
    match unpack .zip with
    | .ok _ => (true, none)
    | .error e => (false, some e)
  else if strEndsWith lower ".tar.gz" || strEndsWith lower ".tgz" then
    match unpack .targz with
    | .ok _ => (true, none)
    | .error e => (false, some e)
  else if strEndsWith lower ".tar" then
    match unpack .tar with
    | .ok _ => (true, none)
    | .error e => (false, some e)
  else
    (false, some "Unsupported archive format")

/-- A file name carries one of the four suffixes `extract_archive`
accepts (case-insensitively). -/
def supportedArchiveName (filePath : String) : Bool :=
  let lower := strToLower filePath
  strEndsWith lower ".zip" || strEndsWith lower ".tar.gz" ||
    strEndsWith lower ".tgz" || strEndsWith lower ".tar"

/-! ## Dependency installer: manifest (`install_requirements_from_file`,
app.py:277) -/

/-- Outcome of one `pip install` subprocess (app.py:298): clean exit,
nonzero exit with stderr, `TimeoutExpired`, or some other exception. -/
inductive PipOutcome where
  | ok
  | fail (stderr : String)
  | timedOut
  | exc (msg : String)
deriving DecidableEq

/-- The requirements-line filter (app.py:286):
`line.strip() and not line.startswith('#')`, then `line.strip()`.
Note the comment test is on the raw line, before stripping. -/
def parseRequirements (fileLines : List String) : List String :=
  (fileLines.filter
      (fun l => !(strTrim l = "") && !(strStartsWith l "#"))).map
    (fun l => strTrim l)

/-- One package installation attempt recorded by the loop body: the
specifier handed to pip and the `timeout=` argument of `subprocess.run`. -/
structure PipCall where
  package : String
  timeoutSecs : ℕ
deriving DecidableEq

/-- Result of one iteration of the install loop in
`install_requirements_from_file`: updated (successes, failures,
annotated failed names). -/
def reqInstallStep (pip : String → PipOutcome) (package : String)
    (acc : ℕ × ℕ × List String) : ℕ × ℕ × List String :=
  match pip package with
  | .ok => (acc.1 + 1, acc.2.1, acc.2.2)
  | .fail _ => (acc.1, acc.2.1 + 1, acc.2.2 ++ [package])
  | .timedOut => (acc.1, acc.2.1 + 1, acc.2.2 ++ [package ++ " (timeout)"])
  | .exc e => (acc.1, acc.2.1 + 1, acc.2.2 ++ [package ++ " (" ++ e ++ ")"])

/-- Embedding of `install_requirements_from_file` (app.py:277), with `os.path.exists`
and the per-package pip run as oracles. Returns the success flag and the
summary message, plus the list of pip invocations the loop made (each
with its `timeout=120`). -/
def install_requirements_from_file (fileExists : Bool)
    (fileLines : List String) (pip : String → PipOutcome) :
    (Bool × String) × List PipCall :=
  if !fileExists then ((false, "requirements.txt not found"), [])
  else
    let requirements := parseRequirements fileLines
    if requirements.isEmpty then
      ((true, "No requirements found in requirements.txt"), [])
    else
      let counts := requirements.foldl
        (fun acc pkg => reqInstallStep pip pkg acc) (0, 0, [])
      let message := "Installed " ++ toString counts.1 ++ " packages" ++
        (if counts.2.1 > 0 then
          ", failed " ++ toString counts.2.1 ++ ": " ++
            strIntercalate ", " (counts.2.2.take 5)
        else "")
      ((counts.2.1 == 0, message),
        requirements.map (fun pkg => ⟨pkg, 120⟩))

/-! ## Dependency installer: import scan (`extract_imports`,
`install_missing_imports`, app.py:329/346) -/

/-- A Python statement as far as the import scan observes it: plain
`import` (the dotted names), `from ... import` (optional module and
relative level), a compound statement with a nested body (function,
class, `if`, loop, ...), or anything else. -/
inductive PyStmt where
  | imp (names : List String)
  | impFrom (module : Option String) (level : ℕ)
  | block (body : List PyStmt)
  | atom

/-- Python `name.split('.')[0]`. -/
def rootModule (name : String) : String :=
  ⟨(((splitOnChar '.' name.data).head?).getD name.data)⟩

mutual
/-- Root modules contributed by one statement under `ast.walk`, which
visits every node of the tree, nested bodies included. `ImportFrom`
contributes only with a module and `level == 0`. -/
def importRootsOf : PyStmt → List String
  | .imp names => names.map rootModule
  | .impFrom (some m) 0 => [rootModule m]
  | .impFrom _ _ => []
  | .block body => importRootsOfList body
  | .atom => []
/-- Root modules contributed by a statement list, in order. -/
def importRootsOfList : List PyStmt → List String
  | [] => []
  | s :: rest => importRootsOf s ++ importRootsOfList rest
end

/-- Embedding of `extract_imports(file_path)` (app.py:329): the set of root module
names collected over `ast.walk` of the parsed tree, as a deduplicated
list. -/
def extract_imports (tree : List PyStmt) : List String :=
  (importRootsOfList tree).dedup

/-- The static alias table `pip_name_map` (app.py:361). -/
def pip_name_map : List (String × String) :=
  [("telebot", "pyTelegramBotAPI"), ("PIL", "Pillow"),
   ("cv2", "opencv-python"), ("Crypto", "pycryptodome"),
   ("bs4", "beautifulsoup4")]

/-- Python `pip_name_map.get(module, module)`. -/
def pipNameFor (module : String) : String :=
  ((pip_name_map.find? (fun e => e.1 = module)).map (fun e => e.2)).getD module

/-- Result of one iteration of the install loop in
`install_missing_imports` (no timeout annotation here; any exception
records the plain module name). -/
def importInstallStep (pip : String → PipOutcome) (module : String)
    (acc : ℕ × ℕ × List String) : ℕ × ℕ × List String :=
  match pip (pipNameFor module) with
  | .ok => (acc.1 + 1, acc.2.1, acc.2.2)
  | .fail _ => (acc.1, acc.2.1 + 1, acc.2.2 ++ [module])
  | .timedOut => (acc.1, acc.2.1 + 1, acc.2.2 ++ [module])
  | .exc _ => (acc.1, acc.2.1 + 1, acc.2.2 ++ [module])

/-- Embedding of `install_missing_imports(imports, ...)` (app.py:346):
filter out the modules `importlib.import_module` can already resolve,
map each remaining one through `pip_name_map`, install with
`timeout=120`, collect failures. Returns the flag, the message, and the
pip invocations made. -/
def install_missing_imports (imports : List String)
    (resolvable : String → Bool) (pip : String → PipOutcome) :
    (Bool × String) × List PipCall :=
  let missing := imports.filter (fun m => !resolvable m)
  if missing.isEmpty then ((true, "All imports available"), [])
  else
    let counts := missing.foldl
      (fun acc m => importInstallStep pip m acc) (0, 0, [])
    let message := "Installed " ++ toString counts.1 ++ " modules" ++
      (if counts.2.1 > 0 then
        ", failed " ++ toString counts.2.1 ++ ": " ++
          strIntercalate ", " counts.2.2
      else "")
    ((counts.2.1 == 0, message),
      missing.map (fun m => ⟨pipNameFor m, 120⟩))

/-! ## Data model: files, runs, live jobs (app.py:87-190) -/

/-- One row of the `files` table (columns used by the lifecycle code). -/
structure FileRecord where
  userId : ℤ
  path : String
  origName : String
  fileType : String
  pid : Option ℤ
  status : String
deriving DecidableEq

/-- One row of the `runs` table. -/
structure RunRecord where
  runId : ℕ
  fileId : ℕ
  startedAt : ℕ
  pid : ℤ
  logPath : String
  finishedAt : Option ℕ
  exitCode : Option ℤ
deriving DecidableEq

/-- One entry of the in-memory `processes` dict: the process handle
(pid and whether `poll()` still returns `None`), the run id and the log
path. -/
structure Job where
  pid : ℤ
  alive : Bool
  runId : ℕ
  logPath : String
deriving DecidableEq

/-- The shared state: the `files` table keyed by file id, the `runs`
table (append-only; a fresh run id is the current length), and the
`processes` job table keyed by file id. -/
structure SysState where
  files : List (ℕ × FileRecord)
  runs : List RunRecord
  procs : List (ℕ × Job)
deriving DecidableEq

/-- Embedding of `get_file_record(file_id)` (app.py:149). -/
def get_file_record (st : SysState) (fileId : ℕ) : Option FileRecord :=
  ((st.files.find? (fun e => e.1 = fileId)).map (fun e => e.2))

/-- Embedding of `update_file_status(file_id, pid, status)` (app.py:179): SQL UPDATE,
a no-op on ids not present. -/
def update_file_status (files : List (ℕ × FileRecord)) (fileId : ℕ)
    (pid : Option ℤ) (status : String) : List (ℕ × FileRecord) :=
  files.map (fun e =>
    if e.1 = fileId then (e.1, { e.2 with pid := pid, status := status }) else e)

/-- Embedding of `record_run_start(file_id, pid, log_path)` (app.py:160): INSERT a
fresh open run; `lastrowid` is modelled as the previous length. -/
def record_run_start (runs : List RunRecord) (fileId : ℕ) (now : ℕ)
    (pid : ℤ) (logPath : String) : List RunRecord :=
  runs ++ [⟨runs.length, fileId, now, pid, logPath, none, none⟩]

/-- Embedding of `record_run_finish(run_id, exit_code)` (app.py:170): SQL UPDATE on
the run id. -/
def record_run_finish (runs : List RunRecord) (runId : ℕ) (now : ℕ)
    (exitCode : ℤ) : List RunRecord :=
  runs.map (fun r =>
    if r.runId = runId then { r with finishedAt := some now, exitCode := some exitCode }
    else r)

/-- Dict assignment `processes[file_id] = job` (overwrites any previous
entry for the key). -/
def insertJob (procs : List (ℕ × Job)) (fileId : ℕ) (job : Job) :
    List (ℕ × Job) :=
  (fileId, job) :: procs.filter (fun e => e.1 ≠ fileId)

/-- Python `processes.pop(file_id, None)`. -/
def removeJob (procs : List (ℕ × Job)) (fileId : ℕ) : List (ℕ × Job) :=
  procs.filter (fun e => e.1 ≠ fileId)

/-- Python `file_id in processes`. -/
def hasJob (procs : List (ℕ × Job)) (fileId : ℕ) : Bool :=
  (procs.find? (fun e => e.1 = fileId)).isSome

/-- The open runs of a file: rows with no exit code yet. -/
def openRunsOf (st : SysState) (fileId : ℕ) : List RunRecord :=
  st.runs.filter (fun r => r.fileId = fileId && r.exitCode = none)

/-! ## The environment oracle for the lifecycle operations -/

/-- Everything `start_file_process` / `get_file_logs` obtain from outside
the program state: the load sample, the clock, the filesystem, the
parsed AST of the target file, import resolvability, pip, spawning, and
log-file reads. -/
structure Env where
  cpu : ℚ
  mem : ℚ
  time : ℕ
  dirTree : String → Option Dir
  isFile : String → Bool
  readLines : String → List String
  parseAst : String → Option (List PyStmt)
  resolvable : String → Bool
  pip : String → PipOutcome
  spawn : List String → String → Except String ℤ
  readLog : String → Except String (List String)

/-- Python `sys.executable`. -/
def sysExecutable : String := "python"

/-- The constant `LOGS_DIR` (app.py:72), relative to the application directory. -/
def LOGS_DIR : String := "data/logs"

/-! ## `start_file_process` (app.py:626) -/

/-- The outcomes of `start_file_process`, mirroring its early returns and
the final success message. `started` carries the pid plus the outcomes of
the two optional dependency-install phases (`none` when the phase was
skipped). -/
inductive StartResult where
  | admissionRejected (reason : Option LoadReason)
  | fileNotFound
  | pathMissing (path : String)
  | noMainFile
  | unsupportedType (ext : String)
  | spawnFailed (msg : String)
  | started (pid : ℤ) (reqInstall : Option (Bool × String))
      (importInstall : Option (Bool × String))
deriving DecidableEq

/-- Target resolution inside `start_file_process` (app.py:644-664):
directories go through `find_main_file`, single files must exist; the
working directory is the dirname of the chosen target. -/
def resolveTarget (env : Env) (filePath : String) :
    Except StartResult (String × String) :=
  match env.dirTree filePath with
  | some d =>
    match find_main_file filePath d with
    | none => .error .noMainFile
    | some m => .ok (m, dirnameOf m)
  | none =>
    if env.isFile filePath then .ok (filePath, dirnameOf filePath)
    else .error (.pathMissing filePath)

/-- Embedding of `start_file_process(file_id, chat_id)` (app.py:626): admission check,
record lookup, target resolution, dependency installation for `.py`
targets, interpreter dispatch, spawn, then the three bookkeeping writes
(open a run, set status Running, register the live job). Returns the
outcome and the updated state; every early return leaves the state
untouched. -/
def start_file_process (cfg : Config) (env : Env) (st : SysState)
    (fileId : ℕ) : StartResult × SysState :=
  let loadCheck := should_stop_due_to_load cfg env.cpu env.mem st.procs.length
  if loadCheck.1 then (.admissionRejected loadCheck.2, st)
  else
    match get_file_record st fileId with
    | none => (.fileNotFound, st)
    | some fr =>
      match resolveTarget env fr.path with
      | .error r => (r, st)
      | .ok (targetFile, workingDir) =>
        let ext := strToLower (extOf targetFile)
        let reqResult : Option (Bool × String) :=
          if ext = ".py" then
            let requirementsPath := joinPath workingDir "requirements.txt"
            if env.isFile requirementsPath then
              some (install_requirements_from_file
                (env.isFile requirementsPath)
                (env.readLines requirementsPath) env.pip).1
            else none
          else none
        let impResult : Option (Bool × String) :=
          if ext = ".py" then
            let imports := extract_imports ((env.parseAst targetFile).getD [])
            if !imports.isEmpty then
              some (install_missing_imports imports env.resolvable env.pip).1
            else none
          else none
        let cmd? : Option (List String) :=
          if ext = ".py" then some [sysExecutable, targetFile]
          else if ext = ".js" then some ["node", targetFile]
          else none
        match cmd? with
        | none => (.unsupportedType ext, st)
        | some cmd =>
          let logFilename := "file_" ++ toString fileId ++ "_" ++
            toString env.time ++ ".log"
          let logPath := joinPath LOGS_DIR logFilename
          match env.spawn cmd workingDir with
          | .error e => (.spawnFailed e, st)
          | .ok pid =>
            let runId := st.runs.length
            let runs := record_run_start st.runs fileId env.time pid logPath
            let files := update_file_status st.files fileId (some pid) "Running"
            let procs := insertJob st.procs fileId ⟨pid, true, runId, logPath⟩
            (.started pid reqResult impResult, ⟨files, runs, procs⟩)

/-! ## `monitor_process` (app.py:734) -/

/-- The detached monitor
body: `process.wait()` either returns an exit code or raises (in which
case the `except` arm substitutes `-1`); the `finally` block then
unconditionally sets the file Stopped, closes the run, and pops the live
job. -/
def monitor_process (waitResult : Except String ℤ) (fileId runId : ℕ)
    (now : ℕ) (st : SysState) : SysState :=
  let exitCode : ℤ :=
    match waitResult with
    | .ok c => c
    | .error _ => -1
  { files := update_file_status st.files fileId none "Stopped",
    runs := record_run_finish st.runs runId now exitCode,
    procs := removeJob st.procs fileId }

/-! ## `stop_file_process` (app.py:764) -/

/-- The observable signalling trace of one `stop_file_process` call. -/
inductive Sig where
  | terminate
  | waitGrace (secs : ℕ)
  | kill
deriving DecidableEq

/-- Embedding of `stop_file_process(file_id)` (app.py:764): when a live job exists and
its process is still running, terminate, wait up to 5 seconds, kill on
timeout; in every case pop the job (if present) and set the file row
Stopped. `exitsWithinGrace` is the oracle for whether the process died
inside the grace period. Returns the `stopped` flag, the new state, and
the emitted signals. -/
def stop_file_process (st : SysState) (fileId : ℕ)
    (exitsWithinGrace : Bool) : Bool × SysState × List Sig :=
  match st.procs.find? (fun e => e.1 = fileId) with
  | some entry =>
    let job := entry.2
    let (stopped, sigs) :=
      if job.alive then
        if exitsWithinGrace then (true, [Sig.terminate, Sig.waitGrace 5])
        else (true, [Sig.terminate, Sig.waitGrace 5, Sig.kill])
      else (false, ([] : List Sig))
    (stopped,
      { files := update_file_status st.files fileId none "Stopped",
        runs := st.runs,
        procs := removeJob st.procs fileId },
      sigs)
  | none =>
    (false,
      { files := update_file_status st.files fileId none "Stopped",
        runs := st.runs,
        procs := st.procs },
      [])

/-! ## `get_file_logs` (app.py:789) -/

/-- Python `content[-lines:]` (note `[-0:]` is the whole list). -/
def lastLines (n : ℕ) (l : List String) : List String :=
  if n = 0 then l else l.drop (l.length - n)

/-- The most recent run of a file:
`SELECT log_path FROM runs WHERE file_id=? ORDER BY started_at DESC
LIMIT 1` (ties resolved to the earlier row; SQLite leaves them
unspecified). -/
def latestRun (runs : List RunRecord) (fileId : ℕ) : Option RunRecord :=
  (runs.filter (fun r => r.fileId = fileId)).foldl
    (fun acc r =>
      match acc with
      | none => some r
      | some b => if r.startedAt > b.startedAt then some r else some b)
    none

/-- The database-fallback half of `get_file_logs` (app.py:801-812). -/
def dbLogsBranch (env : Env) (st : SysState) (fileId : ℕ) (lines : ℕ) :
    String :=
  match latestRun st.runs fileId with
  | some r =>
    if r.logPath ≠ "" && env.isFile r.logPath then
      match env.readLog r.logPath with
      | .error e => "Error reading logs: " ++ e
      | .ok content =>
        if content.isEmpty then "No logs found"
        else strJoin (lastLines lines content)
    else "No log file found"
  | none => "No log file found"

/-- Embedding of `get_file_logs(file_id, lines=50)` (app.py:789): the live job's sink
when one exists on disk, else the latest run's recorded location, else a
not-found indicator; any read failure becomes an error string via the
enclosing `try/except`. Total by construction — it never raises. -/
def get_file_logs (env : Env) (st : SysState) (fileId : ℕ)
    (lines : ℕ) : String :=
  match st.procs.find? (fun e => e.1 = fileId) with
  | some entry =>
    if env.isFile entry.2.logPath then
      match env.readLog entry.2.logPath with
      | .error e => "Error reading logs: " ++ e
      | .ok content =>
        if content.isEmpty then "No logs yet"
        else strJoin (lastLines lines content)
    else dbLogsBranch env st fileId lines
  | none => dbLogsBranch env st fileId lines

/-! ## Callback dispatcher (`callback_handler`, app.py:817;
`show_file_management`, app.py:902) -/

/-- The callback actions routed by `callback_handler`. -/
inductive CbAction where
  | manage
  | start
  | stop
  | restart
  | delete
  | logs
deriving DecidableEq

/-- What `show_file_management` displays: missing file, the ownership
rejection, or the management view (name, type, running flag from the
`processes` table, last pid). -/
inductive MgmtView where
  | fileNotFound
  | accessDenied
  | view (origName : String) (fileType : String) (isRunning : Bool)
      (pid : Option ℤ)
deriving DecidableEq

/-- Embedding of `show_file_management(chat_id, file_id, user_id, ...)` (app.py:902):
the only place a caller's user id is compared with the record's owner. -/
def show_file_management (st : SysState) (fileId : ℕ) (userId : ℤ) :
    MgmtView :=
  match get_file_record st fileId with
  | none => .fileNotFound
  | some fr =>
    if fr.userId ≠ userId then .accessDenied
    else .view fr.origName fr.fileType (hasJob st.procs fileId) fr.pid

/-- Embedding of `list_user_files(user_id)` (app.py:141), as the ids it returns
(`ORDER BY id DESC`, ids being insertion-ordered). -/
def list_user_files (st : SysState) (userId : ℤ) : List ℕ :=
  ((st.files.filter (fun e => e.2.userId = userId)).map (fun e => e.1)).reverse

/-- Embedding of `remove_file_record(file_id)` (app.py:154). -/
def remove_file_record (files : List (ℕ × FileRecord)) (fileId : ℕ) :
    List (ℕ × FileRecord) :=
  files.filter (fun e => e.1 ≠ fileId)

/-- The reply of one callback round trip, per action. The trailing
management view / file listing that the handler sends afterwards is
included where the code sends one. -/
inductive CbOut where
  | managed (v : MgmtView)
  | startOut (r : StartResult) (v : MgmtView)
  | stopOut (stopped : Bool) (v : MgmtView)
  | restartOut (stopped : Bool) (r : StartResult) (v : MgmtView)
  | deleted (listing : List ℕ)
  | logsOut (shownLogs : String) (origName : String)
deriving DecidableEq

/-- The 4000-character truncation applied to the logs text
(app.py:891-893). -/
def truncateLogs (logs : String) : String :=
  if logs.data.length > 4000 then
    "... (truncated) ...\n" ++ (⟨logs.data.drop (logs.data.length - 4000)⟩ : String)
  else logs

/-- Embedding of `callback_handler(call)` (app.py:817) for the file-targeted actions.
`exitsWithinGrace` feeds `stop_file_process`. None of the start / stop /
restart / delete / logs branches consults `userId`; it reaches only the
`show_file_management` / `list_user_files` views sent afterwards. -/
def callback_handler (cfg : Config) (env : Env) (exitsWithinGrace : Bool)
    (a : CbAction) (fileId : ℕ) (userId : ℤ) (st : SysState) :
    SysState × CbOut :=
  match a with
  | .manage => (st, .managed (show_file_management st fileId userId))
  | .start =>
    let s := start_file_process cfg env st fileId
    (s.2, .startOut s.1 (show_file_management s.2 fileId userId))
  | .stop =>
    let s := stop_file_process st fileId exitsWithinGrace
    (s.2.1, .stopOut s.1 (show_file_management s.2.1 fileId userId))
  | .restart =>
    let s := stop_file_process st fileId exitsWithinGrace
    let s2 := start_file_process cfg env s.2.1 fileId
    (s2.2, .restartOut s.1 s2.1 (show_file_management s2.2 fileId userId))
  | .delete =>
    match get_file_record st fileId with
    | some _ =>
      let s := stop_file_process st fileId exitsWithinGrace
      let st2 : SysState :=
        { s.2.1 with files := remove_file_record s.2.1.files fileId }
      (st2, .deleted (list_user_files st2 userId))
    | none => (st, .deleted (list_user_files st userId))
  | .logs =>
    let logs := get_file_logs env st fileId 50
    let origName :=
      match get_file_record st fileId with
      | some fr => fr.origName
      | none => "Unknown"
    (st, .logsOut (truncateLogs logs) origName)

/-! ## Concrete instances used by witnesses and counterexamples -/

/-- The default configuration: CPU 90%, memory 90%, at most 10 jobs. -/
def exCfg : Config := ⟨90, 90, 10⟩

/-- A configuration whose job ceiling is 1. -/
def exCfgMax1 : Config := ⟨90, 90, 1⟩

/-- A quiet host: one Python file `up/1.py` on disk, no directories, no
requirements, no imports, spawning yields pid 200. -/
def envA : Env :=
  { cpu := 0, mem := 0, time := 5,
    dirTree := fun _ => none,
    isFile := fun p => p = "up/1.py",
    readLines := fun _ => [],
    parseAst := fun _ => some [],
    resolvable := fun _ => true,
    pip := fun _ => .ok,
    spawn := fun _ _ => .ok 200,
    readLog := fun _ => .ok [] }

/-- The file row of an artifact that is currently Running (pid 100). -/
def frRunning : FileRecord := ⟨7, "up/1.py", "a.py", "python", some 100, "Running"⟩

/-- The open run belonging to `frRunning`. -/
def runOpen : RunRecord := ⟨0, 1, 1, 100, "data/logs/file_1_1.log", none, none⟩

/-- A state in which artifact 1 is Running: one open run, one live job. -/
def stRunning : SysState :=
  ⟨[(1, frRunning)], [runOpen], [(1, ⟨100, true, 0, "data/logs/file_1_1.log"⟩)]⟩

/-- The file row of an artifact at rest. -/
def frStopped : FileRecord := ⟨7, "up/1.py", "a.py", "python", none, "Stopped"⟩

/-- A state in which artifact 1 is Stopped: closed run, no live job. -/
def stStopped : SysState :=
  ⟨[(1, frStopped)], [⟨0, 1, 1, 100, "data/logs/file_1_1.log", some 3, some 0⟩], []⟩

/-- A host whose log files all exist but whose reads raise `"boom"`. -/
def envReadErr : Env :=
  { envA with isFile := fun _ => true, readLog := fun _ => .error "boom" }

/-- A host whose log files all exist and read two lines. -/
def envReadOk : Env :=
  { envA with
    isFile := fun _ => true
    readLog := fun _ => .ok ["hello\n", "world\n"] }

/-- The claim's reading of the import scan: only statements at the top
level of the module contribute (comparison definition following the
claim's words; the code walks the whole tree). -/
def specTopLevelImports (tree : List PyStmt) : List String :=
  ((tree.map (fun s =>
    match s with
    | .imp names => names.map rootModule
    | .impFrom (some m) 0 => [rootModule m]
    | _ => [])).flatten).dedup

/-- Relation `StmtImportsRoot s r`: somewhere inside statement `s` (at any
nesting depth) sits a relative-free import statement contributing the
root module name `r`. -/
inductive StmtImportsRoot : PyStmt → String → Prop where
  | ofImp {names : List String} {n : String} :
      n ∈ names → StmtImportsRoot (.imp names) (rootModule n)
  | ofFrom {m : String} : StmtImportsRoot (.impFrom (some m) 0) (rootModule m)
  | ofBlock {body : List PyStmt} {s : PyStmt} {r : String} :
      s ∈ body → StmtImportsRoot s r → StmtImportsRoot (.block body) r

/-- The supported-extension files of a walk, tagged with their
directory, flattened in walk order then listing order. -/
def fallbackCandidates (w : List (String × List String)) : List String :=
  (w.map (fun e => (e.2.filter isSourceFile).map (fun f => joinPath e.1 f))).flatten

/-- A pip oracle that fails exactly on the package `bogus`. -/
def pipB : String → PipOutcome :=
  fun p => if p = "bogus" then .fail "no such package" else .ok

/-- A host with `up/1.py` and an adjacent `up/requirements.txt` listing
`requests` and the uninstallable `bogus`; spawning yields pid 300. -/
def envReq : Env :=
  { envA with
    isFile := fun p => p = "up/1.py" || p = "up/requirements.txt"
    readLines := fun _ => ["requests", "bogus"]
    pip := pipB
    spawn := fun _ _ => .ok 300 }

/-! # Theorems -/

/-! ## C2: admission control -/

/-- C2: the admission decision is a pure function of CPU%, memory% and
live-job count via three ordered checks — job count ≥ max, then CPU% ≥
max, then memory% ≥ max — the first violated check fixing the reason,
all passing yielding Admit; and when the live-job count equals the
configured maximum, `start_file_process` returns the admission rejection
and leaves the state untouched (no spawn), for any file id. -/
theorem c2_admission_ordered_checks (cfg : Config) (load mem : ℚ)
    (count : ℕ) (env : Env) (st : SysState) (fileId : ℕ) :
    (count ≥ cfg.maxRunning →
      should_stop_due_to_load cfg load mem count =
        (true, some (.tooManyProcesses count cfg.maxRunning))) ∧
    (count < cfg.maxRunning → load ≥ cfg.cpuThreshold →
      should_stop_due_to_load cfg load mem count =
        (true, some (.highCpu load))) ∧
    (count < cfg.maxRunning → load < cfg.cpuThreshold →
        mem ≥ cfg.memThreshold →
      should_stop_due_to_load cfg load mem count =
        (true, some (.highMemory mem))) ∧
    (count < cfg.maxRunning → load < cfg.cpuThreshold →
        mem < cfg.memThreshold →
      should_stop_due_to_load cfg load mem count = (false, none)) ∧
    (st.procs.length = cfg.maxRunning →
      start_file_process cfg env st fileId =
        (.admissionRejected
          (some (.tooManyProcesses cfg.maxRunning cfg.maxRunning)), st)) := by
  refine ⟨?_, ?_, ?_, ?_, ?_⟩
  · intro h
    simp [should_stop_due_to_load, h]
  · intro h1 h2
    simp [should_stop_due_to_load, h2, not_le.mpr h1]
  · intro h1 h2 h3
    simp [should_stop_due_to_load, not_le.mpr h1, not_le.mpr h2, h3]
  · intro h1 h2 h3
    simp [should_stop_due_to_load, not_le.mpr h1, not_le.mpr h2, not_le.mpr h3]
  · intro h
    have hs : should_stop_due_to_load cfg env.cpu env.mem st.procs.length =
        (true, some (.tooManyProcesses cfg.maxRunning cfg.maxRunning)) := by
      simp [should_stop_due_to_load, h]
    simp [start_file_process, hs]

/-- Witness for C2: with the ceiling at 1 and one live job, `start` on
artifact 1 is rejected with the process-count reason and the state is
unchanged; and the concrete decision triple (job check first) is as
stated. -/
theorem c2_witness :
    should_stop_due_to_load exCfgMax1 0 0 1 =
      (true, some (.tooManyProcesses 1 1)) ∧
    start_file_process exCfgMax1 envA stRunning 1 =
      (.admissionRejected (some (.tooManyProcesses 1 1)), stRunning) := by
  constructor
  · exact (c2_admission_ordered_checks exCfgMax1 0 0 1 envA stRunning 1).1
      (by decide)
  · exact (c2_admission_ordered_checks exCfgMax1 0 0 1 envA stRunning 1).2.2.2.2
      (by decide)

/-! ## C1: `start` on a Running artifact -/

/-- C1 (code bug): `start_file_process` never consults the artifact's
status or the live-job table before spawning. Starting artifact 1 while
its row is Running and a live job exists succeeds, spawns a second
process (pid 200 next to the live pid 100) and inserts a second open
run, violating the one-live-process / one-open-run invariant the spec
states for `start`. -/
theorem c1_start_on_running_spawns_second_run :
    (get_file_record stRunning 1).map FileRecord.status = some "Running" ∧
    hasJob stRunning.procs 1 = true ∧
    (openRunsOf stRunning 1).length = 1 ∧
    (start_file_process exCfg envA stRunning 1).1 =
      .started 200 none none ∧
    (openRunsOf (start_file_process exCfg envA stRunning 1).2 1).length = 2 := by
  decide

/-! ## C9: archive extraction -/

/-- The container format `extract_archive` dispatches a path to, when
any. -/
def archiveKindOf (filePath : String) : Option ArchiveKind :=
  let lower := strToLower filePath
  if strEndsWith lower ".zip" then some .zip
  else if strEndsWith lower ".tar.gz" || strEndsWith lower ".tgz" then
    some .targz
  else if strEndsWith lower ".tar" then some .tar
  else none

/-- C9: `extract_archive` accepts exactly the three container formats
(zip, gzip tar, plain tar) by file-name suffix — any other name yields
the unsupported-format error without the unpacker ever being consulted —
and any unpack failure comes back as an error value `(False, reason)`
rather than a raised exception (the embedding is a total function). -/
theorem c9_extract_archive_dispatch (filePath : String)
    (u u2 : ArchiveKind → Except String Unit) (e : String) :
    (supportedArchiveName filePath = false →
      extract_archive filePath u = (false, some "Unsupported archive format") ∧
      extract_archive filePath u = extract_archive filePath u2) ∧
    (supportedArchiveName filePath = true → ∃ k, archiveKindOf filePath = some k) ∧
    (∀ k, archiveKindOf filePath = some k → u k = .error e →
      extract_archive filePath u = (false, some e)) ∧
    (∀ k, archiveKindOf filePath = some k → u k = .ok () →
      extract_archive filePath u = (true, none)) := by
  by_cases h1 : strEndsWith (strToLower filePath) ".zip"
  · refine ⟨?_, ?_, ?_, ?_⟩
    · intro hs
      exfalso
      simp [supportedArchiveName, h1] at hs
    · intro _
      exact ⟨.zip, by simp [archiveKindOf, h1]⟩
    · intro k hk he
      obtain rfl : ArchiveKind.zip = k := by
        simpa [archiveKindOf, h1] using hk
      simp [extract_archive, h1, he]
    · intro k hk ho
      obtain rfl : ArchiveKind.zip = k := by
        simpa [archiveKindOf, h1] using hk
      simp [extract_archive, h1, ho]
  · by_cases h2 : strEndsWith (strToLower filePath) ".tar.gz" ||
        strEndsWith (strToLower filePath) ".tgz"
    · refine ⟨?_, ?_, ?_, ?_⟩
      · intro hs
        exfalso
        simp [supportedArchiveName, h1] at hs
        rcases (Bool.or_eq_true_iff).mp h2 with h | h <;> simp [h] at hs
      · intro _
        exact ⟨.targz, by simp [archiveKindOf, h1, h2]⟩
      · intro k hk he
        obtain rfl : ArchiveKind.targz = k := by
          simpa [archiveKindOf, h1, h2] using hk
        simp [extract_archive, h1, h2, he]
      · intro k hk ho
        obtain rfl : ArchiveKind.targz = k := by
          simpa [archiveKindOf, h1, h2] using hk
        simp [extract_archive, h1, h2, ho]
    · by_cases h3 : strEndsWith (strToLower filePath) ".tar"
      · refine ⟨?_, ?_, ?_, ?_⟩
        · intro hs
          exfalso
          simp [supportedArchiveName, h3] at hs
        · intro _
          exact ⟨.tar, by simp [archiveKindOf, h1, h2, h3]⟩
        · intro k hk he
          obtain rfl : ArchiveKind.tar = k := by
            simpa [archiveKindOf, h1, h2, h3] using hk
          simp [extract_archive, h1, h2, h3, he]
        · intro k hk ho
          obtain rfl : ArchiveKind.tar = k := by
            simpa [archiveKindOf, h1, h2, h3] using hk
          simp [extract_archive, h1, h2, h3, ho]
      · refine ⟨?_, ?_, ?_, ?_⟩
        · intro _
          constructor <;> simp [extract_archive, h1, h2, h3]
        · intro hs
          exfalso
          simp [supportedArchiveName, h1, h3] at hs
          rcases hs with h | h <;> simp [h] at h2
        · intro k hk _
          exfalso
          simp [archiveKindOf, h1, h2, h3] at hk
        · intro k hk _
          exfalso
          simp [archiveKindOf, h1, h2, h3] at hk

/-- Witness for C9: `a.rar` is rejected as unsupported with the unpacker
never consulted; a zip whose unpack raises surfaces `(False, reason)`;
a tarball whose unpack succeeds yields `(True, None)`. -/
theorem c9_witness :
    extract_archive "a.rar" (fun _ => .ok ()) =
      (false, some "Unsupported archive format") ∧
    extract_archive "b.zip" (fun _ => .error "bad zip") =
      (false, some "bad zip") ∧
    extract_archive "c.tar.gz" (fun _ => .ok ()) = (true, none) := by
  refine ⟨?_, ?_, ?_⟩
  · exact ((c9_extract_archive_dispatch "a.rar" (fun _ => .ok ())
      (fun _ => .ok ()) "x").1 (by decide)).1
  · exact (c9_extract_archive_dispatch "b.zip" (fun _ => .error "bad zip")
      (fun _ => .error "bad zip") "bad zip").2.2.1 .zip (by decide) rfl
  · exact (c9_extract_archive_dispatch "c.tar.gz" (fun _ => .ok ())
      (fun _ => .ok ()) "x").2.2.2 .targz (by decide) rfl

/-! ## Helper lemmas on the table operations -/

/-- Computing `find?` after `update_file_status`: the row is found iff it was
there, with its `pid`/`status` fields replaced. -/
theorem find?_update_file_status (files : List (ℕ × FileRecord)) (fid : ℕ)
    (pid : Option ℤ) (status : String) :
    (update_file_status files fid pid status).find? (fun e => e.1 = fid) =
      (files.find? (fun e => e.1 = fid)).map
        (fun e => (e.1, { e.2 with pid := pid, status := status })) := by
  simp only [update_file_status]
  rw [List.find?_map]
  have hcomp : ((fun e : ℕ × FileRecord => decide (e.1 = fid)) ∘
      (fun e : ℕ × FileRecord =>
        if e.1 = fid then (e.1, { e.2 with pid := pid, status := status })
        else e)) = (fun e : ℕ × FileRecord => decide (e.1 = fid)) := by
    funext e
    by_cases h : e.1 = fid <;> simp [h]
  rw [hcomp]
  cases hf : files.find? (fun e => decide (e.1 = fid)) with
  | none => rfl
  | some e =>
    have hp := List.find?_some hf
    simp only [decide_eq_true_eq] at hp
    simp [hp]

/-- Computing `get_file_record` after `update_file_status` on the same table. -/
theorem get_file_record_update (st : SysState) (fid : ℕ) (pid : Option ℤ)
    (status : String) (fr : FileRecord)
    (h : get_file_record st fid = some fr) :
    ((update_file_status st.files fid pid status).find?
        (fun e => e.1 = fid)).map (fun e => e.2) =
      some { fr with pid := pid, status := status } := by
  rw [find?_update_file_status]
  simp only [get_file_record] at h
  obtain ⟨e, he, rfl⟩ := Option.map_eq_some'.mp h
  simp [he]

/-- After `removeJob fid` no entry with key `fid` remains. -/
theorem hasJob_removeJob (procs : List (ℕ × Job)) (fid : ℕ) :
    hasJob (removeJob procs fid) fid = false := by
  have h : (removeJob procs fid).find? (fun e => e.1 = fid) = none := by
    rw [List.find?_eq_none]
    intro x hx
    simpa using (List.mem_filter.mp hx).2
  simp [hasJob, h]

/-- Every row of `update_file_status files fid pid status` whose key is
`fid` carries the new `pid` and `status`. -/
theorem mem_update_file_status (files : List (ℕ × FileRecord)) (fid : ℕ)
    (pid : Option ℤ) (status : String) :
    ∀ e ∈ update_file_status files fid pid status, e.1 = fid →
      e.2.pid = pid ∧ e.2.status = status := by
  intro e he hk
  simp only [update_file_status, List.mem_map] at he
  obtain ⟨a, _, rfl⟩ := he
  by_cases h : a.1 = fid
  · simp [h]
  · rw [if_neg h] at hk
    exact absurd hk h

/-- Applying `update_file_status` to Stopped/None is the identity on a table
whose rows for the key are already Stopped with no pid. -/
theorem update_file_status_id (files : List (ℕ × FileRecord)) (fid : ℕ)
    (h : ∀ e ∈ files, e.1 = fid → e.2.pid = none ∧ e.2.status = "Stopped") :
    update_file_status files fid none "Stopped" = files := by
  induction files with
  | nil => rfl
  | cons a t ih =>
    have ht : ∀ e ∈ t, e.1 = fid → e.2.pid = none ∧ e.2.status = "Stopped" :=
      fun e he => h e (List.mem_cons_of_mem a he)
    have hrec : update_file_status t fid none "Stopped" = t := ih ht
    show (if a.1 = fid then
        (a.1, { a.2 with pid := none, status := "Stopped" }) else a) ::
      update_file_status t fid none "Stopped" = a :: t
    rw [hrec]
    by_cases hk : a.1 = fid
    · obtain ⟨hp, hs⟩ := h a (List.mem_cons_self a t) hk
      obtain ⟨k, fr⟩ := a
      obtain ⟨u, pa, o, ty, pd, stt⟩ := fr
      simp only at hp hs
      subst hp
      subst hs
      simp [hk]
    · rw [if_neg hk]

/-! ## C3: the monitor\'s unconditional cleanup -/

/-- C3: whatever `process.wait()` does — return an exit code or raise
inside the monitor (modelled by the `Except` argument) — the monitor
`finally` block sets the artifact row to Stopped with no pid, closes
the run `rid` with the observed exit code (`-1` when the wait raised),
and removes the live job, so a monitor-internal error never leaves the
artifact Running. -/
theorem c3_monitor_always_cleans_up (w : Except String ℤ) (fid rid now : ℕ)
    (st : SysState) :
    (∀ fr, get_file_record st fid = some fr →
      get_file_record (monitor_process w fid rid now st) fid =
        some { fr with pid := none, status := "Stopped" }) ∧
    (∀ r ∈ (monitor_process w fid rid now st).runs, r.runId = rid →
      r.finishedAt = some now ∧
      r.exitCode = some (match w with | .ok c => c | .error _ => -1)) ∧
    hasJob (monitor_process w fid rid now st).procs fid = false := by
  refine ⟨?_, ?_, ?_⟩
  · intro fr hfr
    exact get_file_record_update st fid none "Stopped" fr hfr
  · intro r hr hrid
    simp only [monitor_process, record_run_finish, List.mem_map] at hr
    obtain ⟨r0, _, rfl⟩ := hr
    by_cases h : r0.runId = rid
    · simp [h]
    · rw [if_neg h] at hrid
      exact absurd hrid h
  · exact hasJob_removeJob st.procs fid

/-- Witness for C3: a monitor whose wait raised (`"boom"`) still moves
artifact 1 from Running to Stopped, closes run 0 with the sentinel exit
code `-1`, and clears the job table. -/
theorem c3_witness :
    get_file_record (monitor_process (.error "boom") 1 0 9 stRunning) 1 =
      some { frRunning with pid := none, status := "Stopped" } ∧
    ((⟨0, 1, 1, 100, "data/logs/file_1_1.log", some 9, some (-1)⟩ :
        RunRecord).finishedAt = some 9 ∧
      (⟨0, 1, 1, 100, "data/logs/file_1_1.log", some 9, some (-1)⟩ :
        RunRecord).exitCode = some (-1)) ∧
    hasJob (monitor_process (.error "boom") 1 0 9 stRunning).procs 1 = false := by
  refine ⟨?_, ?_, ?_⟩
  · exact (c3_monitor_always_cleans_up (.error "boom") 1 0 9 stRunning).1
      frRunning (by decide)
  · exact (c3_monitor_always_cleans_up (.error "boom") 1 0 9 stRunning).2.1
      ⟨0, 1, 1, 100, "data/logs/file_1_1.log", some 9, some (-1)⟩
      (by decide) (by decide)
  · exact (c3_monitor_always_cleans_up (.error "boom") 1 0 9 stRunning).2.2

/-! ## C8: `stop` as a no-op and idempotent operation -/

/-- Calling `stop_file_process` on a state with no live job for `fid` and whose
rows for `fid` are already Stopped with no pid returns "not stopped",
emits no signal, and leaves the state exactly unchanged. -/
theorem stop_file_process_noop (st : SysState) (fid : ℕ) (g : Bool)
    (h1 : st.procs.find? (fun e => e.1 = fid) = none)
    (h2 : ∀ e ∈ st.files, e.1 = fid → e.2.pid = none ∧ e.2.status = "Stopped") :
    stop_file_process st fid g = (false, st, []) := by
  simp only [stop_file_process, h1]
  rw [update_file_status_id st.files fid h2]

/-- The job table of the state left by `stop_file_process` never has an
entry for the stopped id. -/
theorem stop_file_process_clears_job (st : SysState) (fid : ℕ) (g : Bool) :
    (stop_file_process st fid g).2.1.procs.find? (fun e => e.1 = fid) = none := by
  cases hf : st.procs.find? (fun e => e.1 = fid) with
  | none =>
    simp only [stop_file_process, hf]
  | some e =>
    simp only [stop_file_process, hf, removeJob]
    rw [List.find?_eq_none]
    intro x hx
    simpa using (List.mem_filter.mp hx).2

/-- The file table left by `stop_file_process` is always the Stopped/None
update of the previous one. -/
theorem stop_file_process_files (st : SysState) (fid : ℕ) (g : Bool) :
    (stop_file_process st fid g).2.1.files =
      update_file_status st.files fid none "Stopped" := by
  cases hf : st.procs.find? (fun e => e.1 = fid) <;>
    simp only [stop_file_process, hf]

/-- C8: `stop` on an artifact with no live job (Stopped state) sends no
signal and leaves the state unchanged; `stop` twice yields the same
state as `stop` once (idempotence); and on a Running artifact (live job
whose process is alive) `stop` reports success, emits terminate → 5s
grace wait → kill only if the grace period expires, removes the live
job, and sets the row Stopped. -/
theorem c8_stop_noop_and_idempotent (st : SysState) (fid : ℕ) (g g2 : Bool) :
    (st.procs.find? (fun e => e.1 = fid) = none →
      (∀ e ∈ st.files, e.1 = fid → e.2.pid = none ∧ e.2.status = "Stopped") →
      stop_file_process st fid g = (false, st, [])) ∧
    ((stop_file_process (stop_file_process st fid g).2.1 fid g2) =
      (false, (stop_file_process st fid g).2.1, [])) ∧
    (∀ e, st.procs.find? (fun x => x.1 = fid) = some e → e.2.alive = true →
      (stop_file_process st fid g).1 = true ∧
      (stop_file_process st fid g).2.2 =
        .terminate :: .waitGrace 5 :: (if g then [] else [.kill]) ∧
      hasJob (stop_file_process st fid g).2.1.procs fid = false ∧
      (∀ fr, get_file_record st fid = some fr →
        get_file_record (stop_file_process st fid g).2.1 fid =
          some { fr with pid := none, status := "Stopped" })) := by
  refine ⟨?_, ?_, ?_⟩
  · intro h1 h2
    exact stop_file_process_noop st fid g h1 h2
  · have h1 := stop_file_process_clears_job st fid g
    have h2 : ∀ e ∈ (stop_file_process st fid g).2.1.files, e.1 = fid →
        e.2.pid = none ∧ e.2.status = "Stopped" := by
      rw [stop_file_process_files st fid g]
      exact mem_update_file_status st.files fid none "Stopped"
    exact stop_file_process_noop (stop_file_process st fid g).2.1 fid g2 h1 h2
  · intro e he halive
    refine ⟨?_, ?_, ?_, ?_⟩
    · cases g <;> simp [stop_file_process, he, halive]
    · cases g <;> simp [stop_file_process, he, halive]
    · simp only [stop_file_process, he]
      exact hasJob_removeJob st.procs fid
    · intro fr hfr
      have hfile := stop_file_process_files st fid g
      show ((stop_file_process st fid g).2.1.files.find?
          (fun x => x.1 = fid)).map (fun x => x.2) = _
      rw [hfile]
      exact get_file_record_update st fid none "Stopped" fr hfr

/-- Witness for C8: stopping the Stopped artifact 1 is a signal-free
no-op and repeating it changes nothing; stopping the Running artifact 1
with a process that ignores the 5s grace period terminates, waits,
kills, clears the job and sets the row Stopped. -/
theorem c8_witness :
    stop_file_process stStopped 1 true = (false, stStopped, []) ∧
    stop_file_process (stop_file_process stRunning 1 false).2.1 1 false =
      (false, (stop_file_process stRunning 1 false).2.1, []) ∧
    (stop_file_process stRunning 1 false).1 = true ∧
    (stop_file_process stRunning 1 false).2.2 =
      [.terminate, .waitGrace 5, .kill] ∧
    hasJob (stop_file_process stRunning 1 false).2.1.procs 1 = false := by
  have hrun := (c8_stop_noop_and_idempotent stRunning 1 false false).2.2
    (1, ⟨100, true, 0, "data/logs/file_1_1.log"⟩) (by decide) (by decide)
  refine ⟨?_, ?_, ?_, ?_, ?_⟩
  · exact (c8_stop_noop_and_idempotent stStopped 1 true true).1
      (by decide) (by decide)
  · exact (c8_stop_noop_and_idempotent stRunning 1 false false).2.1
  · exact hrun.1
  · exact hrun.2.1
  · exact hrun.2.2.1

/-! ## C10: `get_file_logs` never raises -/

/-- C10: with a live job whose sink exists, `get_file_logs` returns the
last `lines` lines of the sink, or an error string when the read raises;
with no live job it falls back to the most recent run's recorded
location, returning the not-found indicator when there is none; read
failures in the fallback surface as the same error string. The embedding
is a total function into `String`, so no call raises. -/
theorem c10_get_file_logs_total (env : Env) (st : SysState) (fid lines : ℕ) :
    (∀ e, st.procs.find? (fun x => x.1 = fid) = some e →
      env.isFile e.2.logPath = true →
      (∀ content, env.readLog e.2.logPath = .ok content → content ≠ [] →
        get_file_logs env st fid lines = strJoin (lastLines lines content)) ∧
      (∀ err, env.readLog e.2.logPath = .error err →
        get_file_logs env st fid lines = "Error reading logs: " ++ err)) ∧
    (st.procs.find? (fun x => x.1 = fid) = none →
      get_file_logs env st fid lines = dbLogsBranch env st fid lines) ∧
    (st.procs.find? (fun x => x.1 = fid) = none →
      latestRun st.runs fid = none →
      get_file_logs env st fid lines = "No log file found") ∧
    (∀ r, st.procs.find? (fun x => x.1 = fid) = none →
      latestRun st.runs fid = some r →
      r.logPath ≠ "" → env.isFile r.logPath = true →
      (∀ content, env.readLog r.logPath = .ok content → content ≠ [] →
        get_file_logs env st fid lines = strJoin (lastLines lines content)) ∧
      (∀ err, env.readLog r.logPath = .error err →
        get_file_logs env st fid lines = "Error reading logs: " ++ err)) := by
  refine ⟨?_, ?_, ?_, ?_⟩
  · intro e he hex
    constructor
    · intro content hc hne
      have hemp : content.isEmpty = false := by
        simpa [List.isEmpty_iff] using hne
      simp [get_file_logs, he, hex, hc, hemp]
    · intro err herr
      simp [get_file_logs, he, hex, herr]
  · intro hn
    simp [get_file_logs, hn]
  · intro hn hl
    simp [get_file_logs, hn, dbLogsBranch, hl]
  · intro r hn hl hne hex
    constructor
    · intro content hc hcne
      have hemp : content.isEmpty = false := by
        simpa [List.isEmpty_iff] using hcne
      simp [get_file_logs, hn, dbLogsBranch, hl, hne, hex, hc, hemp]
    · intro err herr
      simp [get_file_logs, hn, dbLogsBranch, hl, hne, hex, herr]

/-- Witness for C10: a live job whose sink read raises gives the
error-string result; with no live job the most recent run's log is read
and its last lines returned; both calls return plain strings. -/
theorem c10_witness :
    get_file_logs envReadErr stRunning 1 50 = "Error reading logs: boom" ∧
    get_file_logs envReadOk stStopped 1 50 = "hello\nworld\n" := by
  constructor
  · exact ((c10_get_file_logs_total envReadErr stRunning 1 50).1
      (1, ⟨100, true, 0, "data/logs/file_1_1.log"⟩) (by decide) rfl).2
      "boom" rfl
  · exact (((c10_get_file_logs_total envReadOk stStopped 1 50).2.2.2
      ⟨0, 1, 1, 100, "data/logs/file_1_1.log", some 3, some 0⟩
      (by decide) (by decide) (by decide) rfl).1
      ["hello\n", "world\n"] rfl (by decide)).trans (by decide)

/-! ## C4: control operations never check ownership -/

/-- C4: the effect of the start / stop / restart / delete / logs
callbacks is a function of the file id and the current state only — two
different callers leave identical states, and the logs reply (text and
name) is identical as well — while `show_file_management`, the only
ownership check in the dispatcher, rejects any caller whose user id
differs from the record's owner. One tenant can therefore drive another
tenant's artifact by supplying its id. -/
theorem c4_control_ops_ignore_caller (cfg : Config) (env : Env) (g : Bool)
    (fid : ℕ) (u1 u2 : ℤ) (st : SysState) :
    (∀ a : CbAction, a ≠ .manage →
      (callback_handler cfg env g a fid u1 st).1 =
        (callback_handler cfg env g a fid u2 st).1) ∧
    ((callback_handler cfg env g .logs fid u1 st).2 =
      (callback_handler cfg env g .logs fid u2 st).2) ∧
    (∀ fr, get_file_record st fid = some fr → fr.userId ≠ u1 →
      show_file_management st fid u1 = .accessDenied) := by
  refine ⟨?_, rfl, ?_⟩
  · intro a ha
    cases a with
    | manage => exact absurd rfl ha
    | start => rfl
    | stop => rfl
    | restart => rfl
    | logs => rfl
    | delete =>
      cases hf : get_file_record st fid <;> simp [callback_handler, hf]
  · intro fr hfr hne
    simp [show_file_management, hfr, hne]

/-- Witness for C4: caller 8 (not the owner) and caller 7 (the owner)
stopping artifact 1 produce the same state, although the management view
denies caller 8. -/
theorem c4_witness :
    (callback_handler exCfg envA true .stop 1 8 stRunning).1 =
      (callback_handler exCfg envA true .stop 1 7 stRunning).1 ∧
    show_file_management stRunning 1 8 = .accessDenied := by
  constructor
  · exact (c4_control_ops_ignore_caller exCfg envA true 1 8 7 stRunning).1
      .stop (by decide)
  · exact (c4_control_ops_ignore_caller exCfg envA true 1 8 7 stRunning).2.2
      frRunning (by decide) (by decide)

/-! ## C6: the static import scan -/

mutual
/-- Membership in the roots one statement contributes, as the deep
`StmtImportsRoot` relation. -/
theorem mem_importRootsOf (s : PyStmt) (r : String) :
    r ∈ importRootsOf s ↔ StmtImportsRoot s r := by
  cases s with
  | imp names =>
    simp only [importRootsOf, List.mem_map]
    constructor
    · rintro ⟨n, hn, rfl⟩
      exact .ofImp hn
    · intro h
      cases h with
      | ofImp hn => exact ⟨_, hn, rfl⟩
  | impFrom m lvl =>
    cases m with
    | none =>
      constructor
      · intro h
        simp [importRootsOf] at h
      · intro h
        cases h
    | some mm =>
      cases lvl with
      | zero =>
        simp only [importRootsOf, List.mem_singleton]
        constructor
        · rintro rfl
          exact .ofFrom
        · intro h
          cases h
          rfl
      | succ k =>
        constructor
        · intro h
          simp [importRootsOf] at h
        · intro h
          cases h
  | block body =>
    simp only [importRootsOf]
    rw [mem_importRootsOfList body r]
    constructor
    · rintro ⟨s, hs, h⟩
      exact .ofBlock hs h
    · intro h
      cases h with
      | ofBlock hs h => exact ⟨_, hs, h⟩
  | atom =>
    constructor
    · intro h
      simp [importRootsOf] at h
    · intro h
      cases h

/-- Membership in the roots a statement list contributes. -/
theorem mem_importRootsOfList (l : List PyStmt) (r : String) :
    r ∈ importRootsOfList l ↔ ∃ s ∈ l, StmtImportsRoot s r := by
  cases l with
  | nil =>
    simp [importRootsOfList]
  | cons s rest =>
    simp only [importRootsOfList, List.mem_append]
    rw [mem_importRootsOf s r, mem_importRootsOfList rest r]
    constructor
    · rintro (h | ⟨s2, hs2, h2⟩)
      · exact ⟨s, List.mem_cons_self s rest, h⟩
      · exact ⟨s2, List.mem_cons_of_mem s hs2, h2⟩
    · rintro ⟨s2, hs2, h2⟩
      rcases List.mem_cons.mp hs2 with rfl | hs2
      · exact Or.inl h2
      · exact Or.inr ⟨s2, hs2, h2⟩
end

/-- Counterexample for C6: a module whose only import sits inside a
nested body (`def f(): import foo.bar`). The code's `ast.walk` scan
collects `foo`; the claim's "top-level only" reading collects nothing. -/
theorem c6_counterexample :
    "foo" ∈ extract_imports [.block [.imp ["foo.bar"]]] ∧
    "foo" ∉ specTopLevelImports [.block [.imp ["foo.bar"]]] := by
  decide

/-- C6 (amended): the scan collects exactly the root module names of the
relative-free import statements appearing at ANY nesting depth of the
tree (`ast.walk` visits nested bodies; relative imports with nonzero
level and bare relative `from . import` are excluded); each collected
name not resolvable in the environment is mapped through the static
alias table and handed to pip (timeout 120) exactly once. -/
theorem c6_import_scan_all_depths (tree : List PyStmt)
    (resolvable : String → Bool) (pip : String → PipOutcome) :
    (∀ r, r ∈ extract_imports tree ↔ ∃ s ∈ tree, StmtImportsRoot s r) ∧
    ((install_missing_imports (extract_imports tree) resolvable pip).2 =
      ((extract_imports tree).filter (fun m => !resolvable m)).map
        (fun m => ⟨pipNameFor m, 120⟩)) ∧
    pipNameFor "telebot" = "pyTelegramBotAPI" ∧
    pipNameFor "PIL" = "Pillow" ∧
    pipNameFor "cv2" = "opencv-python" := by
  refine ⟨?_, ?_, by decide, by decide, by decide⟩
  · intro r
    rw [extract_imports, List.mem_dedup]
    exact mem_importRootsOfList tree r
  · by_cases h : ((extract_imports tree).filter (fun m => !resolvable m)).isEmpty
    · have h2 : (extract_imports tree).filter (fun m => !resolvable m) = [] := by
        simpa [List.isEmpty_iff] using h
      simp [install_missing_imports, h2]
    · simp [install_missing_imports, h]

/-- Witness for C6: in the nested-import module the scan finds `foo`
(via the deep relation), and with nothing resolvable the loop calls pip
on the alias-mapped names of `["telebot", "PIL", "numpy"]` with timeout
120 each. -/
theorem c6_witness :
    "foo" ∈ extract_imports [.block [.imp ["foo.bar"]]] ∧
    (install_missing_imports ["telebot", "PIL", "numpy"]
        (fun _ => false) (fun _ => .ok)).2 =
      [⟨"pyTelegramBotAPI", 120⟩, ⟨"Pillow", 120⟩, ⟨"numpy", 120⟩] := by
  constructor
  · exact ((c6_import_scan_all_depths [.block [.imp ["foo.bar"]]]
      (fun _ => true) (fun _ => .ok)).1 "foo").mpr
      ⟨.block [.imp ["foo.bar"]], List.mem_cons_self _ _,
        .ofBlock (List.mem_cons_self _ _)
          (show StmtImportsRoot (.imp ["foo.bar"]) "foo" from
            (by have h := StmtImportsRoot.ofImp
                  (List.mem_cons_self "foo.bar" [])
                simpa using h))⟩
  · have h := (c6_import_scan_all_depths
      [.imp ["telebot"], .imp ["PIL"], .imp ["numpy"]]
      (fun _ => false) (fun _ => .ok)).2.1
    exact h.trans (by decide)

/-! ## C7: manifest-based dependency installation -/

/-- The failure count accumulated by the requirements install loop is
the number of specifiers whose pip run did not exit cleanly. -/
theorem reqInstall_failed_count (pip : String → PipOutcome)
    (pkgs : List String) (acc : ℕ × ℕ × List String) :
    (pkgs.foldl (fun a p => reqInstallStep pip p a) acc).2.1 =
      acc.2.1 + (pkgs.filter (fun p => pip p ≠ .ok)).length := by
  induction pkgs generalizing acc with
  | nil => simp
  | cons p rest ih =>
    rw [List.foldl_cons, ih]
    cases hp : pip p <;>
      simp [reqInstallStep, hp, List.filter_cons] <;> omega

/-- Counterexample for C7: the line `"  # comment"` is a comment
(its first non-blank character is `#`), yet the code's filter — which
tests `startswith('#')` on the raw, unstripped line — keeps it: it
becomes the package specifier `"# comment"` and is handed to pip. -/
theorem c7_counterexample :
    strStartsWith (strTrim "  # comment") "#" = true ∧
    parseRequirements ["  # comment"] = ["# comment"] ∧
    (install_requirements_from_file true ["  # comment"]
        (fun _ => .fail "err")).2 = [⟨"# comment", 120⟩] := by
  decide

/-- C7 (amended): a line is skipped iff it is blank after stripping or
begins with `#` in column 0 (an indented comment line is treated as a
specifier); every kept line's stripped text is installed by exactly one
pip invocation with the fixed 120-second timeout; the success flag is
true iff no specifier failed (failures are collected, not raised); and a
partially failing installation still lets `start_file_process` proceed
to the spawn. -/
theorem c7_manifest_install_best_effort (fileLines : List String)
    (pip : String → PipOutcome) (cfg : Config) (env : Env) (st : SysState)
    (fid : ℕ) (fr : FileRecord) (target wdir : String) (pid : ℤ) :
    ((install_requirements_from_file true fileLines pip).2 =
      (fileLines.filter
          (fun l => !(strTrim l = "") && !(strStartsWith l "#"))).map
        (fun l => ⟨strTrim l, 120⟩)) ∧
    ((install_requirements_from_file true fileLines pip).1.1 = true ↔
      ((parseRequirements fileLines).filter (fun p => pip p ≠ .ok)).length = 0) ∧
    ((should_stop_due_to_load cfg env.cpu env.mem st.procs.length).1 = false →
      get_file_record st fid = some fr →
      resolveTarget env fr.path = .ok (target, wdir) →
      strToLower (extOf target) = ".py" →
      env.spawn [sysExecutable, target] wdir = .ok pid →
      ∃ req imp, (start_file_process cfg env st fid).1 =
        .started pid req imp) := by
  refine ⟨?_, ?_, ?_⟩
  · by_cases h : (parseRequirements fileLines).isEmpty
    · have h2 : parseRequirements fileLines = [] := by
        simpa [List.isEmpty_iff] using h
      have h3 : (fileLines.filter
          (fun l => !(strTrim l = "") && !(strStartsWith l "#"))).map
            (fun l => (⟨strTrim l, 120⟩ : PipCall)) =
          (parseRequirements fileLines).map (fun p => (⟨p, 120⟩ : PipCall)) := by
        simp [parseRequirements, List.map_map]
      simp [install_requirements_from_file, h, h3, h2]
    · have h3 : (fileLines.filter
          (fun l => !(strTrim l = "") && !(strStartsWith l "#"))).map
            (fun l => (⟨strTrim l, 120⟩ : PipCall)) =
          (parseRequirements fileLines).map (fun p => (⟨p, 120⟩ : PipCall)) := by
        simp [parseRequirements, List.map_map]
      simp [install_requirements_from_file, h, h3]
  · by_cases h : (parseRequirements fileLines).isEmpty
    · have h2 : parseRequirements fileLines = [] := by
        simpa [List.isEmpty_iff] using h
      simp [install_requirements_from_file, h, h2]
    · have hc := reqInstall_failed_count pip (parseRequirements fileLines)
        (0, 0, [])
      simp [install_requirements_from_file, h, hc]
  · intro hload hfr hres hext hspawn
    simp only [start_file_process]
    rw [hload]
    simp only [Bool.false_eq_true, if_false, hfr]
    rw [hres]
    simp only [hext]
    simp [hspawn]

/-- Witness for C7: a manifest `["requests", "bogus"]` whose second
package fails yields two pip calls with timeout 120, a false success
flag — and `start` on the artifact still proceeds to the spawn
(pid 300). -/
theorem c7_witness :
    (install_requirements_from_file true ["requests", "bogus"] pipB).2 =
      [⟨"requests", 120⟩, ⟨"bogus", 120⟩] ∧
    (install_requirements_from_file true ["requests", "bogus"] pipB).1.1 =
      false ∧
    (∃ req imp, (start_file_process exCfg envReq stStopped 1).1 =
      .started 300 req imp) := by
  have h := c7_manifest_install_best_effort ["requests", "bogus"] pipB
    exCfg envReq stStopped 1 frStopped "up/1.py" "up" 300
  refine ⟨h.1.trans (by decide), ?_,
    h.2.2 (by decide) (by decide) rfl (by decide) rfl⟩
  cases hb : (install_requirements_from_file true ["requests", "bogus"]
      pipB).1.1
  · rfl
  · exact absurd (h.2.1.mp hb) (by decide)

/-! ## C5: entry-point resolution -/

/-- The function `find?` returns the head of the filtered list. -/
theorem find?_eq_head?_filter {α : Type} (p : α → Bool) (l : List α) :
    l.find? p = (l.filter p).head? := by
  induction l with
  | nil => rfl
  | cons a t ih =>
    by_cases h : p a
    · rw [List.find?_cons_of_pos _ h, List.filter_cons_of_pos h, List.head?_cons]
    · rw [List.find?_cons_of_neg _ h, List.filter_cons_of_neg h, ih]

/-- Stage 3 picks exactly the first supported file of the walk, in walk
order then listing order. -/
theorem findFallbackInWalk_eq (w : List (String × List String)) :
    findFallbackInWalk w = (fallbackCandidates w).head? := by
  induction w with
  | nil => rfl
  | cons e rest ih =>
    simp only [findFallbackInWalk, fallbackCandidates, List.map_cons,
      List.flatten_cons]
    rw [find?_eq_head?_filter]
    cases hfil : e.2.filter isSourceFile with
    | nil => simpa [fallbackCandidates] using ih
    | cons x xs => simp

/-- Stage 2 finds nothing when no walked directory lists a priority
name. -/
theorem findPriorityInWalk_eq_none (w : List (String × List String))
    (h : ∀ e ∈ w, ∀ n ∈ priority_files, ¬ n ∈ e.2) :
    findPriorityInWalk w = none := by
  induction w with
  | nil => rfl
  | cons e rest ih =>
    have he : priority_files.find? (fun n => e.2.any (fun f => f = n)) =
        none := by
      rw [List.find?_eq_none]
      intro n hn
      simp only [List.any_eq_true, decide_eq_true_eq]
      rintro ⟨f, hf, rfl⟩
      exact h e (List.mem_cons_self e rest) f hn hf
    simp only [findPriorityInWalk, he]
    exact ih (fun e2 he2 => h e2 (List.mem_cons_of_mem e he2))

/-- Stage 3 finds nothing iff the walk holds no supported file. -/
theorem findFallbackInWalk_eq_none_iff (w : List (String × List String)) :
    findFallbackInWalk w = none ↔
      ∀ e ∈ w, ∀ f ∈ e.2, isSourceFile f = false := by
  induction w with
  | nil => simp [findFallbackInWalk]
  | cons e rest ih =>
    cases hf : e.2.find? isSourceFile with
    | some x =>
      simp only [findFallbackInWalk, hf]
      constructor
      · intro hx
        simp at hx
      · intro hall
        have hsx := List.find?_some hf
        have hmem := List.mem_of_find?_eq_some hf
        have := hall e (List.mem_cons_self e rest) x hmem
        rw [this] at hsx
        simp at hsx
    | none =>
      simp only [findFallbackInWalk, hf]
      rw [ih]
      have hnone : ∀ f ∈ e.2, isSourceFile f = false := by
        intro f hf2
        have h2 := List.find?_eq_none.mp hf f hf2
        simpa using h2
      constructor
      · intro hrest e2 he2 f hf2
        rcases List.mem_cons.mp he2 with rfl | he2
        · exact hnone f hf2
        · exact hrest e2 he2 f hf2
      · intro hall e2 he2 f hf2
        exact hall e2 (List.mem_cons_of_mem e he2) f hf2

/-- Every name on the priority list carries a supported extension. -/
theorem priority_files_are_source :
    ∀ n ∈ priority_files, isSourceFile n = true := by
  decide

/-- The walk of a tree starts with the tree's own root entry. -/
theorem walkDir_head (root : String) (d : Dir) :
    walkDir root d = (root, d.files) :: walkForest root d.subs := by
  cases d
  rfl

/-- C5: entry-point resolution proceeds root-priority first (the first
priority name listed at the root wins), then priority names over the
walk; when no priority name occurs anywhere, the result is the first
supported file of the recursive walk in walk order; and resolution
returns NotFound exactly when the tree holds no file with a supported
extension. -/
theorem c5_find_main_file_stages (root : String) (d : Dir) :
    (∀ n, priority_files.find? (fun m => d.files.any (fun f => f = m)) =
        some n →
      find_main_file root d = some (joinPath root n)) ∧
    ((∀ e ∈ walkDir root d, ∀ n ∈ priority_files, ¬ n ∈ e.2) →
      find_main_file root d = (fallbackCandidates (walkDir root d)).head?) ∧
    (find_main_file root d = none ↔
      ∀ e ∈ walkDir root d, ∀ f ∈ e.2, isSourceFile f = false) := by
  refine ⟨?_, ?_, ?_⟩
  · intro n h
    simp [find_main_file, h]
  · intro h
    have h1 : priority_files.find?
        (fun m => d.files.any (fun f => f = m)) = none := by
      rw [List.find?_eq_none]
      intro n hn
      simp only [List.any_eq_true, decide_eq_true_eq]
      rintro ⟨f, hf, rfl⟩
      have hd : (root, d.files) ∈ walkDir root d := by
        rw [walkDir_head]
        exact List.mem_cons_self _ _
      exact h (root, d.files) hd f hn hf
    have h2 := findPriorityInWalk_eq_none (walkDir root d) h
    simp only [find_main_file, h1, h2]
    exact findFallbackInWalk_eq (walkDir root d)
  · constructor
    · intro hm
      rw [← findFallbackInWalk_eq_none_iff]
      simp only [find_main_file] at hm
      cases h1 : priority_files.find?
          (fun m => d.files.any (fun f => f = m)) with
      | some n =>
        rw [h1] at hm
        simp at hm
      | none =>
        rw [h1] at hm
        cases h2 : findPriorityInWalk (walkDir root d) with
        | some p =>
          rw [h2] at hm
          simp at hm
        | none =>
          rw [h2] at hm
          exact hm
    · intro hall
      have h3 : findFallbackInWalk (walkDir root d) = none :=
        (findFallbackInWalk_eq_none_iff _).mpr hall
      have h2 : findPriorityInWalk (walkDir root d) = none := by
        apply findPriorityInWalk_eq_none
        intro e he n hn hmem
        have hs := priority_files_are_source n hn
        have hz := hall e he n hmem
        rw [hz] at hs
        simp at hs
      have h1 : priority_files.find?
          (fun m => d.files.any (fun f => f = m)) = none := by
        rw [List.find?_eq_none]
        intro n hn
        simp only [List.any_eq_true, decide_eq_true_eq]
        rintro ⟨f, hf, rfl⟩
        have hd : (root, d.files) ∈ walkDir root d := by
          rw [walkDir_head]
          exact List.mem_cons_self _ _
        have hs := priority_files_are_source f hn
        have hz := hall (root, d.files) hd f hf
        rw [hz] at hs
        simp at hs
      simp [find_main_file, h1, h2, h3]

/-- Witness for C5: a tree with `main.py` at its root resolves to it; a
tree whose only source file is the non-priority `lib/util.py` resolves
to it via the fallback; a tree with no source file resolves to
NotFound. -/
theorem c5_witness :
    find_main_file "ex" (Dir.node ["main.py", "readme.txt"] []) =
      some "ex/main.py" ∧
    find_main_file "ex"
        (Dir.node ["readme.txt"] [("lib", Dir.node ["util.py"] [])]) =
      some "ex/lib/util.py" ∧
    find_main_file "ex" (Dir.node ["notes.txt"] []) = none := by
  refine ⟨?_, ?_, ?_⟩
  · exact (c5_find_main_file_stages "ex"
      (Dir.node ["main.py", "readme.txt"] [])).1 "main.py" (by decide)
  · exact ((c5_find_main_file_stages "ex"
      (Dir.node ["readme.txt"] [("lib", Dir.node ["util.py"] [])])).2.1
      (by decide)).trans (by decide)
  · exact (c5_find_main_file_stages "ex"
      (Dir.node ["notes.txt"] [])).2.2.mpr (by decide)
